import Mathlib

/-!
Shallow embedding of the p2p-rust cache node (src/main.rs and
src/client/client.rs).  Strings are modelled as lists of characters
(`Str`); Rust's byte-slicing panics become `none` results of `sliceFrom`.
The `HashMap` cache is modelled as an association list with overwrite
insertion; the `HashSet` peer registry as a duplicate-free list.
-/

namespace P2P

/-- Characters, the model of a Rust `String` / `&str` (ASCII payloads). -/
abbrev Str := List Char

/-- Model of `char::is_whitespace` restricted to the ASCII whitespace that
the protocol can carry (space and control characters from line input). -/
def isWS (c : Char) : Bool :=
  c == ' ' || c == '\n' || c == '\t' || c == '\r'

/-- Rust `s.starts_with(pat)`. -/
def startsWith : Str → Str → Bool
  | _, [] => true
  | [], _ :: _ => false
  | c :: cs, p :: ps => p == c && startsWith cs ps

/-- Rust `&s[i..]`: `none` models the panic when `i` is past the end. -/
def sliceFrom (s : Str) (i : Nat) : Option Str :=
  if i ≤ s.length then some (s.drop i) else none

/-- Rust `str::trim`, leading part. -/
def trimStart (s : Str) : Str := s.dropWhile isWS

/-- Rust `str::trim`, trailing part. -/
def trimEnd (s : Str) : Str := (s.reverse.dropWhile isWS).reverse

/-- Rust `str::trim`. -/
def trim (s : Str) : Str := trimEnd (trimStart s)

/-- Rust `s.split(sep)` for a one-character separator: always at least one
field, empty fields kept. -/
def splitChar (sep : Char) : Str → List Str
  | [] => [[]]
  | c :: cs =>
    if c == sep then [] :: splitChar sep cs
    else
      match splitChar sep cs with
      | [] => [[c]]
      | p :: ps => (c :: p) :: ps

/-- The `SharedCache` contents: `HashMap<String, String>` as an
association list whose keys stay duplicate-free under `cacheInsert`. -/
abbrev Cache := List (Str × Str)

/-- Rust `HashMap::insert` (overwrite semantics). -/
def cacheInsert (k v : Str) (c : Cache) : Cache :=
  (k, v) :: c.filter (fun p => !(p.1 == k))

/-- Rust `HashMap::get`. -/
def cacheGet (k : Str) (c : Cache) : Option Str :=
  (c.find? (fun p => p.1 == k)).map (fun p => p.2)

/-- Rust `HashMap::len`. -/
def cacheLen (c : Cache) : Nat := c.length

/-- Decimal rendering of the entry count, `usize::to_string`. -/
def natToStr (n : Nat) : Str := (Nat.repr n).data

/-- The `GET_ALL` response body: `key=value` lines joined by `\n`
(`handle_connection`, the `GET_ALL` branch). -/
def getAllResponse (c : Cache) : Str :=
  List.intercalate ['\n'] (c.map (fun p => p.1 ++ '=' :: p.2))

/-- Everything `handle_connection` produces for one request: the reply
written to the socket, the cache afterwards, and the key/value pair passed
to the spawned `broadcast_set` task (`none` when no replication task is
spawned). -/
structure HandleResult where
  response : Str
  cache : Cache
  replicated : Option (Str × Str)
deriving DecidableEq, Repr

/-- The request-processing core of `handle_connection` (src/main.rs
lines 150–216): `none` models a panic from an out-of-range slice. -/
def handle_connection (request : Str) (cache : Cache) : Option HandleResult :=
  if startsWith request "GET".data then
    if startsWith request "GET_ALL".data then
      some ⟨getAllResponse cache, cache, none⟩
    else if startsWith request "GET_LEN".data then
      some ⟨natToStr (cacheLen cache), cache, none⟩
    else
      match sliceFrom request 4 with
      | none => none
      | some rest =>
        some ⟨(cacheGet (trim rest) cache).getD "Not Found".data, cache, none⟩
  else if startsWith request "SET".data then
    match sliceFrom request 4 with
    | none => none
    | some rest =>
      match splitChar '=' rest with
      | [p0, p1] =>
        some ⟨"OK: SET successful".data,
              cacheInsert (trim p0) (trim p1) cache,
              some (trim p0, trim p1)⟩
      | _ => some ⟨"Invalid SET command".data, cache, none⟩
  else if startsWith request "BROADCAST".data then
    match sliceFrom request 10 with
    | none => none
    | some rest =>
      match splitChar '=' rest with
      | [p0, p1] =>
        some ⟨"OK: BROADCAST applied".data,
              cacheInsert (trim p0) (trim p1) cache,
              none⟩
      | _ => some ⟨"Invalid BROADCAST command".data, cache, none⟩
  else some ⟨"Unknown command".data, cache, none⟩

/-- Combined per-connection effect of `handle_connection` on the whole
node state: the handler reads the peer list only through the `Arc` it
clones for the spawned `broadcast_set` task, so the registry itself is
passed through untouched. -/
structure ConnEffect where
  response : Str
  cache : Cache
  peers : List Str
  replicated : Option (Str × Str)
deriving DecidableEq, Repr

/-- The function `handle_connection` viewed as a step on cache plus peer registry. -/
def handle_connection_step (request : Str) (cache : Cache) (peers : List Str) :
    Option ConnEffect :=
  (handle_connection request cache).map
    (fun r => ⟨r.response, r.cache, peers, r.replicated⟩)

/-- Rust `HashSet::insert` on the peer registry. -/
def peerInsert (p : Str) (peers : List Str) : List Str :=
  if p ∈ peers then peers else p :: peers

/-- Effect of `check_for_expired_peers` (src/main.rs lines 90–103) on the
registry: every peer whose `TcpStream::connect` probe fails is removed.
`alive` is the oracle for connect success. -/
def check_for_expired_peers (alive : Str → Bool) (peers : List Str) : List Str :=
  peers.filter alive

/-- One iteration of the `discovery_service` receive loop (src/main.rs
lines 76–87) on a received datagram `message`: insert the announced peer
when the payload starts with `ANNOUNCE`, then run the expiry sweep.
`none` models the panic of `message[9..]` past the end. -/
def discovery_service_step (alive : Str → Bool) (message : Str)
    (peers : List Str) : Option (List Str) :=
  if startsWith message "ANNOUNCE".data then
    match sliceFrom message 9 with
    | none => none
    | some rest => some (check_for_expired_peers alive (peerInsert (trim rest) peers))
  else some (check_for_expired_peers alive peers)

/-- Lock and network events, in program order, of the tasks that touch the
peer registry around network I/O. -/
inductive NetEv where
  | acquire : NetEv
  | release : NetEv
  | connect : Str → NetEv
  | send : Str → Str → NetEv
deriving DecidableEq, Repr

/-- The replication message: the text `BROADCAST key=value` followed by a newline, as formatted in `broadcast_set`. -/
def broadcastMsg (k v : Str) : Str :=
  "BROADCAST ".data ++ k ++ '=' :: (v ++ ['\n'])

/-- Event trace of `broadcast_set` (src/main.rs lines 245–259): the
registry lock is taken, the set is cloned, the lock is released (the guard
is a temporary dropped at the end of the `clone` statement), and only then
does the loop connect to each peer of the snapshot and, on success, send
the `BROADCAST` message. -/
def broadcast_set_trace (alive : Str → Bool) (peers : List Str) (k v : Str) :
    List NetEv :=
  NetEv.acquire :: NetEv.release ::
    peers.flatMap (fun p =>
      if alive p then [NetEv.connect p, NetEv.send p (broadcastMsg k v)]
      else [NetEv.connect p])

/-- Event trace of `check_for_expired_peers` (src/main.rs lines 90–103):
the `MutexGuard` is bound to a local for the whole function body, so every
`TcpStream::connect` probe of the loop happens while the lock is held; it
is released only when the guard is dropped at the end. -/
def check_for_expired_peers_trace (peers : List Str) : List NetEv :=
  NetEv.acquire :: (peers.map NetEv.connect ++ [NetEv.release])

/-- Whether a trace performs a network operation (connect or send) while
the registry lock is held; `held` is the lock state at the trace's start. -/
def netWhileLocked : Bool → List NetEv → Bool
  | _, [] => false
  | _, NetEv.acquire :: rest => netWhileLocked true rest
  | _, NetEv.release :: rest => netWhileLocked false rest
  | held, NetEv.connect _ :: rest => held || netWhileLocked held rest
  | held, NetEv.send _ _ :: rest => held || netWhileLocked held rest

/-- The two parallel columns built by `write_cache_to_arrow` (src/main.rs
lines 21–50): `keys()` and `values()` of the same `HashMap` iterate in the
same order, so the columns line up index by index. -/
def write_cache_to_arrow (c : Cache) : List Str × List Str :=
  (c.map (fun p => p.1), c.map (fun p => p.2))

/-- Reader `get_from_arrow` of src/client/client.rs lines 27–46: scan the key
column for the first index holding `key` and return the value column entry
at that index. -/
def get_from_arrow (keys values : List Str) (key : Str) : Option Str :=
  ((keys.zip values).find? (fun p => p.1 == key)).map (fun p => p.2)

example :
    handle_connection "SET a=1".data [] =
      some ⟨"OK: SET successful".data, [(['a'], ['1'])], some (['a'], ['1'])⟩ := by
  decide

example : handle_connection "GET a".data [(['a'], ['1'])] =
    some ⟨['1'], [(['a'], ['1'])], none⟩ := by decide

example : handle_connection "GET".data [] = none := by decide

example : discovery_service_step (fun _ => false) "HELLO".data [['p']] = some [] := by
  decide

example : netWhileLocked false (check_for_expired_peers_trace [['p']]) = true := by
  decide

example :
    netWhileLocked false (broadcast_set_trace (fun _ => true) [['p']] ['k'] ['v']) =
      false := by decide

/-! ### Helper lemmas about the string model -/

theorem splitChar_no_sep {sep : Char} {s : Str} (h : sep ∉ s) :
    splitChar sep s = [s] := by
  induction s with
  | nil => rfl
  | cons c cs ih =>
    have hc : (c == sep) = false := by
      simp only [List.mem_cons, not_or] at h
      simpa [beq_iff_eq] using fun he => h.1 he.symm
    have hcs : sep ∉ cs := by
      simp only [List.mem_cons, not_or] at h
      exact h.2
    simp [splitChar, hc, ih hcs]

theorem splitChar_pair {sep : Char} {k v : Str} (hk : sep ∉ k) (hv : sep ∉ v) :
    splitChar sep (k ++ sep :: v) = [k, v] := by
  induction k with
  | nil => simp [splitChar, splitChar_no_sep hv]
  | cons c cs ih =>
    have hc : (c == sep) = false := by
      simp only [List.mem_cons, not_or] at hk
      simpa [beq_iff_eq] using fun he => hk.1 he.symm
    have hcs : sep ∉ cs := by
      simp only [List.mem_cons, not_or] at hk
      exact hk.2
    simp [splitChar, hc, ih hcs]

/-! ### Helper lemmas about the cache model -/

theorem cacheGet_insert_self (k v : Str) (c : Cache) :
    cacheGet k (cacheInsert k v c) = some v := by
  simp [cacheGet, cacheInsert, List.find?]

theorem cacheInsert_idem (k v : Str) (c : Cache) :
    cacheInsert k v (cacheInsert k v c) = cacheInsert k v c := by
  simp [cacheInsert, List.filter_filter]

/-! ### Characterisation of `handle_connection` on each request shape -/

theorem handle_connection_get (rest : Str) (c : Cache) :
    handle_connection ('G' :: 'E' :: 'T' :: ' ' :: rest) c =
      some ⟨(cacheGet (trim rest) c).getD "Not Found".data, c, none⟩ := by
  have h1 : startsWith ('G' :: 'E' :: 'T' :: ' ' :: rest) "GET".data = true := rfl
  have h2 : startsWith ('G' :: 'E' :: 'T' :: ' ' :: rest) "GET_ALL".data = false := rfl
  have h3 : startsWith ('G' :: 'E' :: 'T' :: ' ' :: rest) "GET_LEN".data = false := rfl
  have h4 : sliceFrom ('G' :: 'E' :: 'T' :: ' ' :: rest) 4 = some rest := by
    simp [sliceFrom]
  simp [handle_connection, h1, h2, h3, h4]

theorem handle_connection_set (rest : Str) (c : Cache) :
    handle_connection ('S' :: 'E' :: 'T' :: ' ' :: rest) c =
      (match splitChar '=' rest with
       | [p0, p1] =>
         some ⟨"OK: SET successful".data,
               cacheInsert (trim p0) (trim p1) c,
               some (trim p0, trim p1)⟩
       | _ => some ⟨"Invalid SET command".data, c, none⟩) := by
  have h1 : startsWith ('S' :: 'E' :: 'T' :: ' ' :: rest) "GET".data = false := rfl
  have h2 : startsWith ('S' :: 'E' :: 'T' :: ' ' :: rest) "SET".data = true := rfl
  have h4 : sliceFrom ('S' :: 'E' :: 'T' :: ' ' :: rest) 4 = some rest := by
    simp [sliceFrom]
  simp [handle_connection, h1, h2, h4]

theorem handle_connection_broadcast (rest : Str) (c : Cache) :
    handle_connection
        ('B' :: 'R' :: 'O' :: 'A' :: 'D' :: 'C' :: 'A' :: 'S' :: 'T' :: ' ' :: rest) c =
      (match splitChar '=' rest with
       | [p0, p1] =>
         some ⟨"OK: BROADCAST applied".data,
               cacheInsert (trim p0) (trim p1) c,
               none⟩
       | _ => some ⟨"Invalid BROADCAST command".data, c, none⟩) := by
  have h1 : startsWith
      ('B' :: 'R' :: 'O' :: 'A' :: 'D' :: 'C' :: 'A' :: 'S' :: 'T' :: ' ' :: rest)
      "GET".data = false := rfl
  have h2 : startsWith
      ('B' :: 'R' :: 'O' :: 'A' :: 'D' :: 'C' :: 'A' :: 'S' :: 'T' :: ' ' :: rest)
      "SET".data = false := rfl
  have h3 : startsWith
      ('B' :: 'R' :: 'O' :: 'A' :: 'D' :: 'C' :: 'A' :: 'S' :: 'T' :: ' ' :: rest)
      "BROADCAST".data = true := rfl
  have h4 : sliceFrom
      ('B' :: 'R' :: 'O' :: 'A' :: 'D' :: 'C' :: 'A' :: 'S' :: 'T' :: ' ' :: rest)
      10 = some rest := by
    simp [sliceFrom]
  simp [handle_connection, h1, h2, h3, h4]

/-! ### Claim theorems -/

/-- C1: a `BROADCAST <key>=<value>` request applies the pair to the cache,
responds `OK: BROADCAST applied`, and spawns no replication task (no
further `BROADCAST` is issued for that update). -/
theorem broadcast_request_applies_without_refanout (k v : Str) (c : Cache)
    (hk : '=' ∉ k) (hv : '=' ∉ v) (hk' : trim k = k) (hv' : trim v = v) :
    handle_connection
        ('B' :: 'R' :: 'O' :: 'A' :: 'D' :: 'C' :: 'A' :: 'S' :: 'T' :: ' ' ::
          (k ++ '=' :: v)) c =
      some ⟨"OK: BROADCAST applied".data, cacheInsert k v c, none⟩ := by
  rw [handle_connection_broadcast, splitChar_pair hk hv]
  simp [hk', hv']

/-- C1 witness at `key = k`, `value = v`, empty cache. -/
theorem broadcast_request_applies_without_refanout_witness :
    ('=' ∉ (['k'] : Str)) ∧ ('=' ∉ (['v'] : Str)) ∧
    trim ['k'] = ['k'] ∧ trim ['v'] = ['v'] ∧
    handle_connection
        ('B' :: 'R' :: 'O' :: 'A' :: 'D' :: 'C' :: 'A' :: 'S' :: 'T' :: ' ' ::
          (['k'] ++ '=' :: ['v'])) [] =
      some ⟨"OK: BROADCAST applied".data, cacheInsert ['k'] ['v'] [], none⟩ :=
  ⟨by decide, by decide, by decide, by decide,
   broadcast_request_applies_without_refanout ['k'] ['v'] []
     (by decide) (by decide) (by decide) (by decide)⟩

/-- C4: a `SET <payload>` whose payload does not split into exactly two
fields around `=` answers `Invalid SET command`, leaves the cache (hence
`GET_LEN`) unchanged, and spawns no replication task. -/
theorem malformed_set_rejected (payload : Str) (c : Cache)
    (h : (splitChar '=' payload).length ≠ 2) :
    handle_connection ('S' :: 'E' :: 'T' :: ' ' :: payload) c =
      some ⟨"Invalid SET command".data, c, none⟩ := by
  rw [handle_connection_set]
  split
  · rename_i p0 p1 hs
    exact absurd (by rw [hs]; rfl) h
  · rfl

/-- C4 witness at payload `malformed` (no `=`). -/
theorem malformed_set_rejected_witness :
    (splitChar '=' "malformed".data).length ≠ 2 ∧
    handle_connection ('S' :: 'E' :: 'T' :: ' ' :: "malformed".data) [] =
      some ⟨"Invalid SET command".data, [], none⟩ :=
  ⟨by decide, malformed_set_rejected "malformed".data [] (by decide)⟩

/-- C5: in a sequential run, `SET k=v` (from any prior cache, so possibly
after earlier SETs to `k`) followed by `GET k` returns exactly `v`. -/
theorem set_then_get_latest (k v : Str) (c : Cache)
    (hk : '=' ∉ k) (hv : '=' ∉ v) (hk' : trim k = k) (hv' : trim v = v) :
    (handle_connection ('S' :: 'E' :: 'T' :: ' ' :: (k ++ '=' :: v)) c).bind
        (fun r => (handle_connection ('G' :: 'E' :: 'T' :: ' ' :: k) r.cache).map
          (fun r2 => r2.response)) = some v := by
  rw [handle_connection_set, splitChar_pair hk hv]
  simp only [hk', hv', Option.some_bind]
  rw [handle_connection_get, hk', cacheGet_insert_self]
  rfl

/-- C5 witness at `k = k`, `v = v2` over a cache already holding `k`. -/
theorem set_then_get_latest_witness :
    ('=' ∉ (['k'] : Str)) ∧ ('=' ∉ ("v2".data : Str)) ∧
    trim ['k'] = ['k'] ∧ trim "v2".data = "v2".data ∧
    (handle_connection ('S' :: 'E' :: 'T' :: ' ' :: (['k'] ++ '=' :: "v2".data))
        [(['k'], "v1".data)]).bind
      (fun r => (handle_connection ('G' :: 'E' :: 'T' :: ' ' :: ['k']) r.cache).map
        (fun r2 => r2.response)) = some "v2".data :=
  ⟨by decide, by decide, by decide, by decide,
   set_then_get_latest ['k'] "v2".data [(['k'], "v1".data)]
     (by decide) (by decide) (by decide) (by decide)⟩

/-- C6: `GET <key>` for a key absent (after trimming) from the cache
answers the literal `Not Found` and leaves the cache unchanged, with no
replication task and no failure. -/
theorem get_absent_not_found (rest : Str) (c : Cache)
    (h : cacheGet (trim rest) c = none) :
    handle_connection ('G' :: 'E' :: 'T' :: ' ' :: rest) c =
      some ⟨"Not Found".data, c, none⟩ := by
  rw [handle_connection_get, h]
  rfl

/-- C6 witness: `GET missing` against a one-entry cache. -/
theorem get_absent_not_found_witness :
    cacheGet (trim "missing".data) [(['k'], ['v'])] = none ∧
    handle_connection ('G' :: 'E' :: 'T' :: ' ' :: "missing".data) [(['k'], ['v'])] =
      some ⟨"Not Found".data, [(['k'], ['v'])], none⟩ :=
  ⟨by decide, get_absent_not_found "missing".data [(['k'], ['v'])] (by decide)⟩

/-- C7: applying the `BROADCAST k=v` handler twice in succession yields the
same cache state as applying it once. -/
theorem broadcast_apply_idempotent (k v : Str) (c : Cache)
    (hk : '=' ∉ k) (hv : '=' ∉ v) :
    ((handle_connection
          ('B' :: 'R' :: 'O' :: 'A' :: 'D' :: 'C' :: 'A' :: 'S' :: 'T' :: ' ' ::
            (k ++ '=' :: v)) c).bind
        (fun r => handle_connection
          ('B' :: 'R' :: 'O' :: 'A' :: 'D' :: 'C' :: 'A' :: 'S' :: 'T' :: ' ' ::
            (k ++ '=' :: v)) r.cache)).map HandleResult.cache =
      (handle_connection
          ('B' :: 'R' :: 'O' :: 'A' :: 'D' :: 'C' :: 'A' :: 'S' :: 'T' :: ' ' ::
            (k ++ '=' :: v)) c).map HandleResult.cache := by
  rw [handle_connection_broadcast, splitChar_pair hk hv]
  simp only [Option.some_bind]
  rw [handle_connection_broadcast, splitChar_pair hk hv]
  simp [cacheInsert_idem]

/-- C7 witness at `key = k`, `value = v`, empty starting cache. -/
theorem broadcast_apply_idempotent_witness :
    ('=' ∉ (['k'] : Str)) ∧ ('=' ∉ (['v'] : Str)) ∧
    ((handle_connection
          ('B' :: 'R' :: 'O' :: 'A' :: 'D' :: 'C' :: 'A' :: 'S' :: 'T' :: ' ' ::
            (['k'] ++ '=' :: ['v'])) []).bind
        (fun r => handle_connection
          ('B' :: 'R' :: 'O' :: 'A' :: 'D' :: 'C' :: 'A' :: 'S' :: 'T' :: ' ' ::
            (['k'] ++ '=' :: ['v'])) r.cache)).map HandleResult.cache =
      (handle_connection
          ('B' :: 'R' :: 'O' :: 'A' :: 'D' :: 'C' :: 'A' :: 'S' :: 'T' :: ' ' ::
            (['k'] ++ '=' :: ['v'])) []).map HandleResult.cache :=
  ⟨by decide, by decide,
   broadcast_apply_idempotent ['k'] ['v'] [] (by decide) (by decide)⟩

/-- C9: the exact commands `GET`, `SET`, `BROADCAST` and the exact UDP
payload `ANNOUNCE` make the handlers slice past the end of the input and
panic (modelled as `none`): the handlers are not total. -/
theorem exact_commands_not_total (c : Cache) (alive : Str → Bool) (peers : List Str) :
    handle_connection "GET".data c = none ∧
    handle_connection "SET".data c = none ∧
    handle_connection "BROADCAST".data c = none ∧
    discovery_service_step alive "ANNOUNCE".data peers = none :=
  ⟨rfl, rfl, rfl, rfl⟩

/-- Shared frame lemma: a request that starts with neither `SET` nor
`BROADCAST` (a `GET` form or an unknown command) leaves the cache
unchanged and spawns no replication task. -/
theorem handle_connection_frame (request : Str) (c : Cache) (r : HandleResult)
    (hset : startsWith request "SET".data = false)
    (hbc : startsWith request "BROADCAST".data = false)
    (h : handle_connection request c = some r) :
    r.cache = c ∧ r.replicated = none := by
  unfold handle_connection at h
  rw [hset, hbc] at h
  simp only [Bool.false_eq_true, if_false] at h
  split at h
  · split at h
    · cases h
      exact ⟨rfl, rfl⟩
    · split at h
      · cases h
        exact ⟨rfl, rfl⟩
      · split at h
        · cases h
        · cases h
          exact ⟨rfl, rfl⟩
  · cases h
    exact ⟨rfl, rfl⟩

/-- C10: every read-only request (`GET <key>`, `GET_ALL`, `GET_LEN`) and
every unrecognized command — i.e. any request starting with neither `SET`
nor `BROADCAST` — leaves the cache and the peer registry exactly unchanged
and triggers no replication. -/
theorem readonly_and_unknown_frame (request : Str) (c : Cache)
    (peers : List Str) (r : ConnEffect)
    (hset : startsWith request "SET".data = false)
    (hbc : startsWith request "BROADCAST".data = false)
    (h : handle_connection_step request c peers = some r) :
    r.cache = c ∧ r.peers = peers ∧ r.replicated = none := by
  unfold handle_connection_step at h
  cases h0 : handle_connection request c with
  | none => rw [h0] at h; cases h
  | some r0 =>
    rw [h0] at h
    cases h
    have := handle_connection_frame request c r0 hset hbc h0
    exact ⟨this.1, rfl, this.2⟩

/-- C10 witness: `GET_LEN` against a one-entry cache and a one-peer
registry. -/
theorem readonly_and_unknown_frame_witness :
    startsWith "GET_LEN".data "SET".data = false ∧
    startsWith "GET_LEN".data "BROADCAST".data = false ∧
    handle_connection_step "GET_LEN".data [(['k'], ['v'])] [['p']] =
      some ⟨['1'], [(['k'], ['v'])], [['p']], none⟩ ∧
    (([(['k'], ['v'])] : Cache) = [(['k'], ['v'])] ∧
      ([['p']] : List Str) = [['p']] ∧
      (none : Option (Str × Str)) = none) :=
  ⟨by decide, by decide, by decide,
   readonly_and_unknown_frame "GET_LEN".data [(['k'], ['v'])] [['p']]
     ⟨['1'], [(['k'], ['v'])], [['p']], none⟩ (by decide) (by decide) (by decide)⟩

/-- C3 counterexample: a non-`ANNOUNCE` datagram does not leave the peer
registry unchanged — the expiry sweep still runs after every datagram, so
with one unreachable registered peer the payload `HELLO` shrinks the
registry. -/
theorem non_announce_datagram_cex :
    discovery_service_step (fun _ => false) "HELLO".data [['p']] = some [] ∧
    discovery_service_step (fun _ => false) "HELLO".data [['p']] ≠ some [['p']] := by
  decide

/-- C3 amended: a non-`ANNOUNCE` datagram causes no insertion — the
registry after processing it is exactly the expiry sweep applied to the
registry before; in particular the registry is unchanged whenever every
registered peer passes its liveness probe. -/
theorem non_announce_no_insert_amended (alive : Str → Bool) (message : Str)
    (peers : List Str) (h : startsWith message "ANNOUNCE".data = false) :
    discovery_service_step alive message peers =
      some (check_for_expired_peers alive peers) ∧
    ((∀ p ∈ peers, alive p = true) →
      discovery_service_step alive message peers = some peers) := by
  constructor
  · simp [discovery_service_step, h]
  · intro hall
    simp [discovery_service_step, h, check_for_expired_peers,
          List.filter_eq_self.mpr hall]

/-- C3 amended witness: payload `HELLO`, one registered peer, all peers
reachable. -/
theorem non_announce_no_insert_amended_witness :
    startsWith "HELLO".data "ANNOUNCE".data = false ∧
    discovery_service_step (fun _ => true) "HELLO".data [['p']] =
      some (check_for_expired_peers (fun _ => true) [['p']]) ∧
    ((∀ p ∈ ([['p']] : List Str), (fun _ => true) p = true) →
      discovery_service_step (fun _ => true) "HELLO".data [['p']] = some [['p']]) :=
  ⟨by decide,
   (non_announce_no_insert_amended (fun _ => true) "HELLO".data [['p']] (by decide)).1,
   (non_announce_no_insert_amended (fun _ => true) "HELLO".data [['p']] (by decide)).2⟩

/-- A trace that never acquires the lock performs no network operation
while it is held, provided it starts unlocked. -/
theorem netWhileLocked_false_of_no_acquire :
    ∀ tr : List NetEv, (∀ e ∈ tr, e ≠ NetEv.acquire) →
      netWhileLocked false tr = false
  | [], _ => rfl
  | e :: rest, h => by
    have hrest : ∀ e' ∈ rest, e' ≠ NetEv.acquire :=
      fun e' he' => h e' (List.mem_cons_of_mem _ he')
    cases e with
    | acquire => exact absurd rfl (h _ (List.mem_cons_self _ _))
    | release =>
      simpa [netWhileLocked] using netWhileLocked_false_of_no_acquire rest hrest
    | connect p =>
      simpa [netWhileLocked] using netWhileLocked_false_of_no_acquire rest hrest
    | send p m =>
      simpa [netWhileLocked] using netWhileLocked_false_of_no_acquire rest hrest

/-- C2 counterexample: the liveness-probe sweep with one registered peer
performs its `TcpStream::connect` probe while the registry lock is held —
the guard is bound for the whole body of `check_for_expired_peers`. -/
theorem liveness_probe_holds_lock_cex :
    netWhileLocked false (check_for_expired_peers_trace [['p']]) = true := by
  decide

/-- C2 amended: replication (`broadcast_set`) clones the registry under
the lock, releases it, and only then connects and sends, so it never
performs network I/O under the lock; the liveness-probe sweep
(`check_for_expired_peers`), however, holds the registry lock across its
connection probes whenever the registry is non-empty. -/
theorem lock_discipline_amended (alive : Str → Bool) (peers : List Str) (k v : Str) :
    netWhileLocked false (broadcast_set_trace alive peers k v) = false ∧
    (peers ≠ [] →
      netWhileLocked false (check_for_expired_peers_trace peers) = true) := by
  constructor
  · show netWhileLocked false (NetEv.acquire :: NetEv.release :: _) = false
    simp only [netWhileLocked]
    apply netWhileLocked_false_of_no_acquire
    intro e he
    rcases List.mem_flatMap.mp he with ⟨p, _, hep⟩
    have hshape : e = NetEv.connect p ∨ e = NetEv.send p (broadcastMsg k v) := by
      by_cases hp : alive p = true
      · rw [if_pos hp] at hep
        simpa using hep
      · rw [if_neg hp] at hep
        exact Or.inl (by simpa using hep)
    rcases hshape with h1 | h1 <;> subst h1 <;> simp
  · intro hne
    match peers, hne with
    | p :: ps, _ =>
      simp [check_for_expired_peers_trace, netWhileLocked]

/-- C2 amended witness: one live peer, key `k`, value `v`. -/
theorem lock_discipline_amended_witness :
    netWhileLocked false
        (broadcast_set_trace (fun _ => true) [['p']] ['k'] ['v']) = false ∧
    (([['p']] : List Str) ≠ [] →
      netWhileLocked false (check_for_expired_peers_trace [['p']]) = true) :=
  lock_discipline_amended (fun _ => true) [['p']] ['k'] ['v']

/-- The two snapshot columns zip back to the original association list. -/
theorem zip_columns (c : Cache) :
    ((c.map (fun p => p.1)).zip (c.map (fun p => p.2))) = c := by
  induction c with
  | nil => rfl
  | cons a l ih => simp [ih]

/-- With duplicate-free keys, looking up the `i`-th key of the store finds
exactly the `i`-th value. -/
theorem cacheGet_get_of_nodup :
    ∀ (c : Cache), (c.map (fun p => p.1)).Nodup →
      ∀ (i : Nat) (h : i < c.length),
        cacheGet (c.get ⟨i, h⟩).1 c = some (c.get ⟨i, h⟩).2
  | [], _, i, h => absurd h (by simp)
  | a :: l, hnd, 0, h => by simp [cacheGet, List.find?]
  | a :: l, hnd, Nat.succ n, h => by
    rw [List.map_cons] at hnd
    have hpair := List.nodup_cons.mp hnd
    have hn : n < l.length := Nat.lt_of_succ_lt_succ (by simpa using h)
    have hmem : (l.get ⟨n, hn⟩).1 ∈ l.map (fun p => p.1) :=
      List.mem_map.mpr ⟨l.get ⟨n, hn⟩, List.get_mem l n hn, rfl⟩
    have hne : (a.1 == (l.get ⟨n, hn⟩).1) = false := by
      rw [beq_eq_false_iff_ne]
      intro he
      exact hpair.1 (he ▸ hmem)
    have htail := cacheGet_get_of_nodup l hpair.2 n hn
    show cacheGet (l.get ⟨n, hn⟩).1 (a :: l) = some (l.get ⟨n, hn⟩).2
    unfold cacheGet at htail ⊢
    simp only [List.find?, hne]
    exact htail

/-- C8: the Snapshotter's two parallel columns satisfy: the `i`-th value
column entry is the store's value at the `i`-th key column entry; the
columns zip back to exactly the store's pairs; and the reader
`get_from_arrow` run on the written columns agrees with a cache lookup
for every key. -/
theorem snapshot_roundtrip (c : Cache) (hnd : (c.map (fun p => p.1)).Nodup) :
    (∀ (i : Nat) (h : i < ((write_cache_to_arrow c).1).length),
        cacheGet (((write_cache_to_arrow c).1).get ⟨i, h⟩) c =
          some (((write_cache_to_arrow c).2).get
            ⟨i, by simpa [write_cache_to_arrow] using h⟩)) ∧
    ((write_cache_to_arrow c).1).zip ((write_cache_to_arrow c).2) = c ∧
    (∀ key, get_from_arrow (write_cache_to_arrow c).1 (write_cache_to_arrow c).2 key =
        cacheGet key c) := by
  refine ⟨?_, zip_columns c, ?_⟩
  · intro i h
    have hc : i < c.length := by simpa [write_cache_to_arrow] using h
    have := cacheGet_get_of_nodup c hnd i hc
    simpa [write_cache_to_arrow, List.get_eq_getElem, List.getElem_map] using this
  · intro key
    unfold get_from_arrow write_cache_to_arrow
    rw [zip_columns c]
    rfl

/-- C8 witness: the two-entry store of the spec's round-trip example. -/
theorem snapshot_roundtrip_witness :
    (([("k1".data, "v1".data), ("k2".data, "v2".data)] : Cache).map
        (fun p => p.1)).Nodup ∧
    ((write_cache_to_arrow [("k1".data, "v1".data), ("k2".data, "v2".data)]).1).zip
        ((write_cache_to_arrow [("k1".data, "v1".data), ("k2".data, "v2".data)]).2) =
      [("k1".data, "v1".data), ("k2".data, "v2".data)] ∧
    get_from_arrow
        (write_cache_to_arrow [("k1".data, "v1".data), ("k2".data, "v2".data)]).1
        (write_cache_to_arrow [("k1".data, "v1".data), ("k2".data, "v2".data)]).2
        "k2".data =
      cacheGet "k2".data [("k1".data, "v1".data), ("k2".data, "v2".data)] :=
  ⟨by decide,
   (snapshot_roundtrip [("k1".data, "v1".data), ("k2".data, "v2".data)]
      (by decide)).2.1,
   (snapshot_roundtrip [("k1".data, "v1".data), ("k2".data, "v2".data)]
      (by decide)).2.2 "k2".data⟩

end P2P
